import Mathlib

/-!
# corsanywhere: the proxy-request pipeline

A shallow embedding of `corsanywhere.go`: `hasScheme`, the `director` and
`modifyResponse` closures of `corsProxy`, the handler `corsProxy` returns,
`handlePreflight`, `respondError` and `setCORSHeaders`.

Go strings are modelled by `String`, Go `int` by `Int`.  The pieces of the Go
standard library the program calls are modelled as follows.

* `net/http.Header` (a map from header name to a list of values) is an
  association list; `Get`, `Set`, `Add` and `Del` canonicalise the name with
  `textproto.CanonicalMIMEHeaderKey`, which is modelled in full.
* `net/url.Parse`: the front of the function (fragment cut, control-byte
  check, `getScheme`, lower-casing of the scheme) is modelled in full; the
  parsing of what follows the scheme, `URL.ResolveReference` and `URL.String`
  are fields of `NetURL`, so every theorem holds for whatever those functions
  compute.  `goURL` is an instance for escape-free ASCII URLs, used where a
  statement is evaluated at a concrete input.
* `http.Client.Do` is a function `σ → Request → Except String Reply × σ` on an
  arbitrary upstream state `σ`: the reply to a request may depend on everything
  that happened before.
-/

namespace CorsAnywhere

deriving instance DecidableEq for Except

/-! ## Strings -/

/-- Go `strings.HasPrefix`. -/
def hasPrefix (s p : String) : Bool := p.data.isPrefixOf s.data

/-- Source `hasScheme`: the string starts with `http://` or `https://`. -/
def hasScheme (rawurl : String) : Bool :=
  hasPrefix rawurl "http://" || hasPrefix rawurl "https://"

def isLowerAZ (c : Char) : Bool := 97 ≤ c.toNat && c.toNat ≤ 122

def isUpperAZ (c : Char) : Bool := 65 ≤ c.toNat && c.toNat ≤ 90

def isDigit09 (c : Char) : Bool := 48 ≤ c.toNat && c.toNat ≤ 57

/-- ASCII lower-casing of one byte. -/
def lowerByte (c : Char) : Char := if isUpperAZ c then Char.ofNat (c.toNat + 32) else c

/-- The `token` table of RFC 7230 shared by `textproto.validHeaderFieldByte`
and `httpguts.IsTokenRune`: letters, digits and the bytes
33, 35-39, 42, 43, 45, 46, 94, 95, 96, 124, 126. -/
def isTokenByte (c : Char) : Bool :=
  let n := c.toNat
  n == 33 || (35 ≤ n && n ≤ 39) || n == 42 || n == 43 || n == 45 || n == 46 ||
    (48 ≤ n && n ≤ 57) || (65 ≤ n && n ≤ 90) || (94 ≤ n && n ≤ 122) || n == 124 || n == 126

/-- The case rewriting loop of `textproto.canonicalMIMEHeaderKey`: upper case
at the start and after each dash, lower case elsewhere. -/
def canonCase : Bool → List Char → List Char
  | _, [] => []
  | upper, c :: cs =>
    let c1 :=
      if upper && isLowerAZ c then Char.ofNat (c.toNat - 32)
      else if !upper && isUpperAZ c then Char.ofNat (c.toNat + 32)
      else c
    c1 :: canonCase (c1 == '-') cs

/-- Go `textproto.CanonicalMIMEHeaderKey`: a name with a byte outside the token
table is returned unchanged, any other name is put in canonical case. -/
def CanonicalMIMEHeaderKey (s : String) : String :=
  if s.data.all isTokenByte then String.mk (canonCase true s.data) else s

/-! ## Headers -/

/-- Go `http.Header`, a `map[string][]string`, as an association list. -/
structure Header where
  entries : List (String × List String)
deriving DecidableEq, Repr

/-- The values of the first entry named `key`, `[]` when there is none. -/
def lookup : List (String × List String) → String → List String
  | [], _ => []
  | e :: es, key => if e.1 = key then e.2 else lookup es key

namespace Header

/-- The empty map, `make(http.Header)`. -/
def empty : Header := ⟨[]⟩

/-- Raw map indexing `h[key]`: the values stored under exactly `key`, the nil
slice when there is none. -/
def values (h : Header) (key : String) : List String :=
  lookup h.entries key

/-- Go `Header.Get`: the first value under the canonical form of `key`, or `""`. -/
def Get (h : Header) (key : String) : String :=
  match h.values (CanonicalMIMEHeaderKey key) with
  | [] => ""
  | v :: _ => v

/-- Go `Header.Del`: delete the canonical form of `key` from the map. -/
def Del (h : Header) (key : String) : Header :=
  ⟨h.entries.filter (fun e => decide (e.1 ≠ CanonicalMIMEHeaderKey key))⟩

/-- Go `Header.Set`: the canonical form of `key` maps to the single value. -/
def Set (h : Header) (key value : String) : Header :=
  ⟨(CanonicalMIMEHeaderKey key, [value]) :: (h.Del key).entries⟩

/-- Go `Header.Add`: append `value` to the values under the canonical form of `key`. -/
def Add (h : Header) (key value : String) : Header :=
  ⟨(CanonicalMIMEHeaderKey key, h.values (CanonicalMIMEHeaderKey key) ++ [value]) ::
    (h.Del key).entries⟩

/-- The header map has an entry whose name is `name` up to the case folding of
header names (both have the same canonical form). -/
def Carries (h : Header) (name : String) : Prop :=
  ∃ e ∈ h.entries, CanonicalMIMEHeaderKey e.1 = CanonicalMIMEHeaderKey name

/-- Every name in the map is in canonical form, as in every header map built by
the `net/http` server or through `Set` and `Add`. -/
def CanonicalKeys (h : Header) : Prop :=
  ∀ e ∈ h.entries, CanonicalMIMEHeaderKey e.1 = e.1

end Header

/-! ## URLs, requests, responses -/

/-- Go `url.URL` (`User` holds the raw userinfo; `OmitHost` is left out). -/
structure URL where
  Scheme : String := ""
  Opaque : String := ""
  User : Option String := none
  Host : String := ""
  Path : String := ""
  RawPath : String := ""
  ForceQuery : Bool := false
  RawQuery : String := ""
  Fragment : String := ""
  RawFragment : String := ""
deriving DecidableEq, Repr

/-- Go `http.Request`, the fields the program reads or writes.  `RouteParam` is
the value of `chi.URLParam(req, "*")`, carried by the request context. -/
structure Request where
  Method : String
  URL : URL
  Host : String
  Header : Header
  Body : Option String
  RouteParam : String := ""
deriving DecidableEq, Repr

/-- What an upstream server sends back for one request. -/
structure Reply where
  StatusCode : Int
  Status : String
  Header : Header
  Body : String
deriving DecidableEq, Repr

/-- Go `http.Response`; `Request` is the request that was sent to obtain it. -/
structure Response where
  StatusCode : Int
  Status : String
  Header : Header
  Body : String
  Request : Request
deriving DecidableEq, Repr

/-- The response `http.Client.Do` (or the transport) hands back for `req`. -/
def Reply.toResponse (r : Reply) (req : Request) : Response :=
  { StatusCode := r.StatusCode, Status := r.Status, Header := r.Header, Body := r.Body,
    Request := req }

/-! ## net/url -/

/-- The functions of `net/url` that are taken as given. -/
structure NetURL where
  /-- The part of `url.parse` after the scheme is split off: query, authority
  and path of `rest` for the (lower-cased) `scheme`. -/
  parseHier : String → String → Except String URL
  /-- The work of `URL.setFragment`: fragment and raw fragment. -/
  parseFragment : String → Except String (String × String)
  /-- Go `base.ResolveReference(ref)`. -/
  resolveReference : URL → URL → URL
  /-- Go `URL.String`. -/
  urlString : URL → String

/-- Go `strings.Cut` on a one-byte separator: the text before the first `sep`
and, when there is one, the text after it. -/
def cutList (sep : Char) : List Char → List Char × Option (List Char)
  | [] => ([], none)
  | c :: cs => if c = sep then ([], some cs) else (c :: (cutList sep cs).1, (cutList sep cs).2)

/-- Go `stringContainsCTLByte`, one byte: below space, or DEL. -/
def isCTLByte (c : Char) : Bool := c.toNat < 32 || c.toNat == 127

/-- The loop of Go `getScheme`; `first` says the byte is at index 0, `acc`
holds the bytes read so far in reverse. -/
def getSchemeLoop (raw : List Char) : Bool → List Char → List Char →
    Except String (List Char × List Char)
  | _, _, [] => .ok ([], raw)
  | first, acc, c :: cs =>
    if isLowerAZ c || isUpperAZ c then getSchemeLoop raw false (c :: acc) cs
    else if isDigit09 c || c == '+' || c == '-' || c == '.' then
      if first then .ok ([], raw) else getSchemeLoop raw false (c :: acc) cs
    else if c == ':' then
      if first then .error "missing protocol scheme" else .ok (acc.reverse, cs)
    else .ok ([], raw)

/-- Go `getScheme`: `(scheme, rest)`. -/
def getScheme (raw : List Char) : Except String (List Char × List Char) :=
  getSchemeLoop raw true [] raw

/-- Go `url.Parse`. -/
def urlParse (L : NetURL) (rawURL : String) : Except String URL :=
  let u := (cutList '#' rawURL.data).1
  let frag := ((cutList '#' rawURL.data).2).getD []
  if u.any isCTLByte then .error "net/url: invalid control character in URL"
  else
    let parsed : Except String URL :=
      if u = ['*'] then .ok { Path := "*" }
      else
        match getScheme u with
        | .error e => .error e
        | .ok (scheme, rest) =>
          match L.parseHier (String.mk (scheme.map lowerByte)) (String.mk rest) with
          | .error e => .error e
          | .ok url => .ok { url with Scheme := String.mk (scheme.map lowerByte) }
    match parsed with
    | .error e => .error e
    | .ok url =>
      if frag = [] then .ok url
      else
        match L.parseFragment (String.mk frag) with
        | .error e => .error e
        | .ok f => .ok { url with Fragment := f.1, RawFragment := f.2 }

/-! ## net/http request construction -/

/-- Go `strings.LastIndex` for a one-byte separator, `-1` when absent;
`i` is the index of the head of the list. -/
def lastIndexFrom (sep : Char) : Int → Int → List Char → Int
  | _, found, [] => found
  | i, found, c :: cs => lastIndexFrom sep (i + 1) (if c = sep then i else found) cs

def lastIndex (sep : Char) (s : List Char) : Int := lastIndexFrom sep 0 (-1) s

/-- Go `hasPort` of `net/http`. -/
def hasPort (s : String) : Bool := decide (lastIndex ']' s.data < lastIndex ':' s.data)

/-- Go `removeEmptyPort`: strip the empty port in `host:`. -/
def removeEmptyPort (host : String) : String :=
  if hasPort host then
    (if host.data.getLast? = some ':' then String.mk host.data.dropLast else host)
  else host

/-- Go `validMethod`: non-empty and made of token bytes. -/
def validMethod (method : String) : Bool :=
  !method.data.isEmpty && method.data.all isTokenByte

/-- Go `http.NewRequest(method, url, nil)`. -/
def newRequest (L : NetURL) (method url : String) : Except String Request :=
  let method := if method = "" then "GET" else method
  if !validMethod method then .error ("net/http: invalid method " ++ method)
  else
    match urlParse L url with
    | .error e => .error e
    | .ok u =>
      .ok { Method := method, URL := { u with Host := removeEmptyPort u.Host },
            Host := removeEmptyPort u.Host, Header := Header.empty, Body := none }

/-! ## The program -/

/-- The flags `corsProxy` reads: `*fEnableRedirect`, `*fMaxRedirects`. -/
structure Config where
  enableRedirect : Bool
  maxRedirects : Int
deriving DecidableEq, Repr

/-- Go `http.ResponseWriter` as the handler uses it: the header map, the
status given to `WriteHeader` and the bytes written. -/
structure ResponseWriter where
  header : Header
  status : Option Int
  body : String
deriving DecidableEq, Repr

/-- The writer the server hands to the handler. -/
def ResponseWriter.fresh : ResponseWriter := { header := Header.empty, status := none, body := "" }

/-- Go `w.WriteHeader(code)`; a second call is ignored. -/
def ResponseWriter.WriteHeader (w : ResponseWriter) (code : Int) : ResponseWriter :=
  match w.status with
  | none => { w with status := some code }
  | some _ => w

/-- Go `w.Write(body)`; writes status 200 first when no status was written. -/
def ResponseWriter.Write (w : ResponseWriter) (body : String) : ResponseWriter :=
  let w1 := w.WriteHeader 200
  { w1 with body := w1.body ++ body }

/-- Source `setCORSHeaders`. -/
def setCORSHeaders (w : ResponseWriter) (r : Request) : ResponseWriter :=
  let w := { w with header := w.header.Set "access-control-allow-origin" "*" }
  let w := { w with header := w.header.Set "access-control-max-age" "3000000" }
  let reqMethod := r.Header.Get "access-control-request-method"
  let w :=
    if reqMethod ≠ "" then
      { w with header := w.header.Set "access-control-allow-methods" reqMethod }
    else w
  let reqHeaders := r.Header.Get "access-control-request-headers"
  if reqHeaders ≠ "" then
    { w with header := w.header.Set "access-control-request-headers" reqHeaders }
  else w

/-- Source `handlePreflight`. -/
def handlePreflight (w : ResponseWriter) (r : Request) : ResponseWriter :=
  (setCORSHeaders w r).WriteHeader 200

/-- Source `respondError`. -/
def respondError (w : ResponseWriter) (r : Request) (body : String) : ResponseWriter :=
  ((setCORSHeaders w r).WriteHeader 422).Write body

/-- The `corsURL` both the handler and the director parse: the route
parameter, with `http://` in front when `hasScheme` is false. -/
def corsURLOf (r : Request) : String :=
  if !hasScheme r.RouteParam then "http://" ++ r.RouteParam else r.RouteParam

/-- Source `director` closure of `corsProxy`. -/
def director (L : NetURL) (req : Request) : Request :=
  match urlParse L (corsURLOf req) with
  | .error _ => req
  | .ok u =>
    { req with
      URL := { req.URL with Scheme := u.Scheme, Host := u.Host, Path := u.Path }
      Host := u.Host
      Header := (req.Header.Del "set-cookie").Del "set-cookie2" }

/-- What the handler did with a request: it wrote the response itself and
returned, or it called `proxy.ServeHTTP(w, r)`, the only place where an
upstream request is made. -/
inductive Action where
  | responded (w : ResponseWriter)
  | proxied (w : ResponseWriter) (r : Request)
deriving DecidableEq, Repr

/-- The `http.HandlerFunc` that source `corsProxy` returns, applied to `(w, r)`. -/
def corsProxy (L : NetURL) (requireOrigin : Bool) (w : ResponseWriter) (r : Request) : Action :=
  match urlParse L (corsURLOf r) with
  | .error _ => .responded (respondError w r "invalid cors proxy url")
  | .ok _ =>
    if r.Method = "OPTIONS" then .responded (handlePreflight w r)
    else if requireOrigin && r.Header.Get "origin" = "" then
      .responded (respondError w r "origin header is required on the request")
    else .proxied w r

/-- The block of `modifyResponse` under "Determine the redirect URL". -/
def redirectTarget (L : NetURL) (resp : Response) (location : String) : Except String String :=
  if hasScheme location then .ok location
  else
    let orig := resp.Request.URL
    let base : URL := { Scheme := orig.Scheme, Host := orig.Host }
    match urlParse L location with
    | .error e => .error e
    | .ok u => .ok (L.urlString (L.resolveReference base u))

/-- The header copying loop of `modifyResponse`: every value of every name of
`src` is `Add`ed to `dst`, name by name in the order of the list (Go ranges
over the map in an unspecified order; the resulting map depends on it only
when two names of `src` have the same canonical form). -/
def copyHeaders (src dst : Header) : Header :=
  src.entries.foldl (fun acc e => e.2.foldl (fun acc vv => acc.Add e.1 vv) acc) dst

/-- The two `resp.Header.Set` calls that end `modifyResponse`. -/
def stampResponse (resp : Response) : Response :=
  { resp with
    Header := (resp.Header.Set "access-control-allow-origin" "*").Set
      "access-control-max-age" "3000000" }

/-- What a call of `modifyResponse` did: the error it returned or the response
it left in `*resp`, the follow-up requests it passed to `client.Do`, in order,
and the upstream state afterwards. -/
structure Outcome (σ : Type) where
  result : Except String Response
  issued : List Request
  upstream : σ

/-- The error `modifyResponse` returns at the redirect limit. -/
def limitError (maxRedirects : Int) : String :=
  "maximum redirect limit (" ++ toString maxRedirects ++ ") reached"

/-- The response the loop leaves when it detects a redirect loop. -/
def loopDetected (resp : Response) (redirectURL : String) : Response :=
  { resp with
    StatusCode := 400
    Status := "400 Bad Request"
    Body := "redirect loop detected: redirect URL is the same as previous: " ++ redirectURL }

/-- The `for` loop of source `modifyResponse` followed by its last three lines,
started in the loop state `(redirectCount, previousURL, resp)` with the
upstream in state `w`. -/
def redirectLoop {σ : Type} (L : NetURL) (Do : σ → Request → Except String Reply × σ)
    (cfg : Config) (w : σ) (redirectCount : Int) (previousURL : String) (resp : Response) :
    Outcome σ :=
  if cfg.enableRedirect = true ∧ (resp.StatusCode = 307 ∨ resp.StatusCode = 308) then
    if redirectCount ≥ cfg.maxRedirects then
      ⟨.error (limitError cfg.maxRedirects), [], w⟩
    else
      let location := resp.Header.Get "Location"
      if location = "" then ⟨.ok (stampResponse resp), [], w⟩
      else
        match redirectTarget L resp location with
        | .error e => ⟨.error e, [], w⟩
        | .ok redirectURL =>
          if redirectURL = previousURL then
            ⟨.ok (stampResponse (loopDetected resp redirectURL)), [], w⟩
          else
            match newRequest L resp.Request.Method redirectURL with
            | .error e => ⟨.error e, [], w⟩
            | .ok req0 =>
              let req := { req0 with Header := copyHeaders resp.Request.Header req0.Header }
              match Do w req with
              | (.error e, w1) => ⟨.error e, [req], w1⟩
              | (.ok newResp, w1) =>
                let out := redirectLoop L Do cfg w1 (redirectCount + 1) redirectURL
                  (newResp.toResponse req)
                { out with issued := req :: out.issued }
  else ⟨.ok (stampResponse resp), [], w⟩
termination_by (cfg.maxRedirects - redirectCount).toNat
decreasing_by omega

/-- Source `modifyResponse` closure of `corsProxy`. -/
def modifyResponse {σ : Type} (L : NetURL) (Do : σ → Request → Except String Reply × σ)
    (cfg : Config) (w : σ) (resp : Response) : Outcome σ :=
  redirectLoop L Do cfg w 0 (L.urlString resp.Request.URL) resp

/-! ## An instance of `NetURL`

`goURL` follows `net/url` on URLs written with letters, digits and the bytes
`- _ . ~ / : ? = & + , ;` only, without userinfo or IPv6 literal.  On these no
component is escaped or unescaped, so `Path` is the text of the path and
`RawPath` is empty.  Any other byte makes the instance return the error
`outsideInstance`; it is used at concrete inputs only. -/

def outsideInstance : String := "outside the instance"

def isPlainByte (c : Char) : Bool :=
  isLowerAZ c || isUpperAZ c || isDigit09 c ||
    c == '-' || c == '_' || c == '.' || c == '~' || c == '/' || c == ':' || c == '?' ||
    c == '=' || c == '&' || c == '+' || c == ',' || c == ';'

/-- Split at every `/`, as repeated `strings.Cut(remaining, "/")` does. -/
def splitSlash : List Char → List (List Char)
  | [] => [[]]
  | c :: cs =>
    if c = '/' then [] :: splitSlash cs
    else
      match splitSlash cs with
      | [] => [[c]]
      | seg :: segs => (c :: seg) :: segs

/-- Go `validOptionalPort`: empty, or a colon followed by digits. -/
def validOptionalPort : List Char → Bool
  | [] => true
  | c :: cs => c == ':' && cs.all isDigit09

/-- Go `parseHost` without brackets: the text from the last colon on must be a
valid optional port. -/
def parseHostPlain (host : List Char) : Except String String :=
  let i := lastIndex ':' host
  if i ≠ -1 ∧ !validOptionalPort (host.drop i.toNat) then
    .error ("invalid port " ++ String.mk (host.drop i.toNat) ++ " after host")
  else .ok (String.mk host)

/-- The part of Go `url.parse` after `getScheme`. -/
def goParseHier (scheme rest : String) : Except String URL :=
  if !rest.data.all isPlainByte then .error outsideInstance
  else
    let forceQuery : Bool :=
      rest.data.getLast? = some '?' && rest.data.count '?' = 1
    let rest1 : List Char := if forceQuery then rest.data.dropLast else (cutList '?' rest.data).1
    let rawQuery : List Char :=
      if forceQuery then [] else ((cutList '?' rest.data).2).getD []
    if rest1.head? ≠ some '/' ∧ scheme ≠ "" then
      .ok { Opaque := String.mk rest1, ForceQuery := forceQuery, RawQuery := String.mk rawQuery }
    else if rest1.head? ≠ some '/' ∧ (cutList '/' rest1).1.contains ':' then
      .error "first path segment in URL cannot contain colon"
    else if (scheme ≠ "" ∨ !("///".data.isPrefixOf rest1)) ∧ "//".data.isPrefixOf rest1 then
      let authority := (cutList '/' (rest1.drop 2)).1
      let path := (rest1.drop 2).drop authority.length
      match parseHostPlain authority with
      | .error e => .error e
      | .ok host =>
        .ok { Host := host, Path := String.mk path, ForceQuery := forceQuery,
              RawQuery := String.mk rawQuery }
    else
      .ok { Path := String.mk rest1, ForceQuery := forceQuery, RawQuery := String.mk rawQuery }

/-- Go `URL.setFragment` on plain text. -/
def goParseFragment (frag : String) : Except String (String × String) :=
  if frag.data.all isPlainByte then .ok (frag, "") else .error outsideInstance

/-- One round of the loop of Go `resolvePath`; `dst` is the builder without
its leading slash. -/
def resolveStep (st : List Char × Bool) (elem : List Char) : List Char × Bool :=
  if elem = ['.'] then (st.1, false)
  else if elem = ['.', '.'] then
    let index := lastIndex '/' st.1
    if index = -1 then ([], true) else (st.1.take index.toNat, st.2)
  else ((if st.2 then st.1 else st.1 ++ ['/']) ++ elem, false)

/-- Go `resolvePath(base, ref)`. -/
def resolvePath (base ref : List Char) : List Char :=
  let full : List Char :=
    match ref with
    | [] => base
    | c :: _ => if c ≠ '/' then base.take (lastIndex '/' base + 1).toNat ++ ref else ref
  if full = [] then []
  else
    let elems := splitSlash full
    let dst := (elems.foldl resolveStep ([], true)).1
    let dst := if elems.getLast? = some ['.'] ∨ elems.getLast? = some ['.', '.']
      then dst ++ ['/'] else dst
    if dst.head? = some '/' then dst else '/' :: dst

/-- Go `URL.ResolveReference` (escaped path = path). -/
def goResolveReference (u ref : URL) : URL :=
  let url : URL := if ref.Scheme = "" then { ref with Scheme := u.Scheme } else ref
  if ref.Scheme ≠ "" ∨ ref.Host ≠ "" ∨ ref.User ≠ none then
    { url with Path := String.mk (resolvePath ref.Path.data []), RawPath := "" }
  else if ref.Opaque ≠ "" then
    { url with User := none, Host := "", Path := "" }
  else
    let url : URL :=
      if ref.Path = "" ∧ !ref.ForceQuery ∧ ref.RawQuery = "" then
        (if ref.Fragment = "" then
          { url with RawQuery := u.RawQuery, Fragment := u.Fragment, RawFragment := u.RawFragment }
        else { url with RawQuery := u.RawQuery })
      else url
    if ref.Path = "" ∧ u.Opaque ≠ "" then
      { url with Opaque := u.Opaque, User := none, Host := "", Path := "" }
    else
      { url with Host := u.Host, User := u.User,
                 Path := String.mk (resolvePath u.Path.data ref.Path.data), RawPath := "" }

/-- Go `URL.String` (nothing to escape). -/
def goURLString (u : URL) : String :=
  let s1 : String := if u.Scheme ≠ "" then u.Scheme ++ ":" else ""
  let s2 : String :=
    if u.Opaque ≠ "" then s1 ++ u.Opaque
    else
      let a : String :=
        if u.Scheme ≠ "" ∨ u.Host ≠ "" ∨ u.User ≠ none then
          (if u.Host ≠ "" ∨ u.Path ≠ "" ∨ u.User ≠ none then s1 ++ "//" else s1) ++
            (match u.User with
              | some ui => ui ++ "@"
              | none => "") ++ u.Host
        else s1
      let b : String := if u.Path ≠ "" ∧ u.Path.data.head? ≠ some '/' ∧ u.Host ≠ "" then a ++ "/" else a
      let c : String :=
        if b = "" ∧ (cutList '/' u.Path.data).1.contains ':' then b ++ "./" else b
      c ++ u.Path
  let s3 : String := if u.ForceQuery ∨ u.RawQuery ≠ "" then s2 ++ "?" ++ u.RawQuery else s2
  if u.Fragment ≠ "" then s3 ++ "#" ++ u.Fragment else s3

/-- The instance. -/
def goURL : NetURL :=
  { parseHier := goParseHier, parseFragment := goParseFragment,
    resolveReference := goResolveReference, urlString := goURLString }

/-! ## Specification predicates -/

/-- The two CORS headers are set on `h`, each with its single value. -/
def HasCORS (h : Header) : Prop :=
  h.values "Access-Control-Allow-Origin" = ["*"] ∧ h.values "Access-Control-Max-Age" = ["3000000"]

/-- The response `out` is `resp` with the two CORS headers set (whatever `resp`
had under those two names is overwritten) and nothing else changed. -/
def IsStamped (out resp : Response) : Prop :=
  out.StatusCode = resp.StatusCode ∧ out.Status = resp.Status ∧ out.Body = resp.Body ∧
    out.Request = resp.Request ∧ HasCORS out.Header ∧
    ∀ key, key ≠ "Access-Control-Allow-Origin" → key ≠ "Access-Control-Max-Age" →
      out.Header.values key = resp.Header.values key

/-- The loop condition of `modifyResponse`. -/
def Redirecting (cfg : Config) (resp : Response) : Prop :=
  cfg.enableRedirect = true ∧ (resp.StatusCode = 307 ∨ resp.StatusCode = 308)

instance (cfg : Config) (resp : Response) : Decidable (Redirecting cfg resp) := by
  unfold Redirecting; infer_instance

/-- The request `modifyResponse` builds for `redirectURL`: `http.NewRequest`
with the method of `resp.Request`, then the headers of `resp.Request`. -/
def followUp (L : NetURL) (resp : Response) (redirectURL : String) : Except String Request :=
  match newRequest L resp.Request.Method redirectURL with
  | .error e => .error e
  | .ok req0 => .ok { req0 with Header := copyHeaders resp.Request.Header req0.Header }

/-- A redirect chain of exactly `k` hops, followed without any limit: starting
from `resp` (with `prev` the URL of the hop that produced it), `k` times in a
row the response is a 307/308 with a non-empty `Location` whose redirect URL
resolves, differs from the URL of the preceding hop and can be requested, and
the round trip succeeds; the response after the `k`-th hop is not a 307/308.
The result is the follow-up requests in order, the upstream state at the end
and that last response; `none` when the upstream does not behave so. -/
def followChain {σ : Type} (L : NetURL) (Do : σ → Request → Except String Reply × σ) :
    Nat → σ → String → Response → Option (List Request × σ × Response)
  | 0, w, _, resp =>
    if resp.StatusCode = 307 ∨ resp.StatusCode = 308 then none else some ([], w, resp)
  | k + 1, w, prev, resp =>
    if (resp.StatusCode = 307 ∨ resp.StatusCode = 308) ∧ resp.Header.Get "Location" ≠ "" then
      match redirectTarget L resp (resp.Header.Get "Location") with
      | .error _ => none
      | .ok url =>
        if url = prev then none
        else
          match followUp L resp url with
          | .error _ => none
          | .ok req =>
            match Do w req with
            | (.error _, _) => none
            | (.ok reply, w1) =>
              match followChain L Do k w1 url (reply.toResponse req) with
              | none => none
              | some (reqs, wf, final) => some (req :: reqs, wf, final)
    else none

/-! ## Sample inputs -/

/-- An upstream that refuses every connection. -/
def refusing : Unit → Request → Except String Reply × Unit :=
  fun _ _ => (.error "connection refused", ())

/-- The forwarded request `GET http://example.com/a`, as the director leaves it. -/
def sampleRequest : Request :=
  { Method := "GET", URL := { Scheme := "http", Host := "example.com", Path := "/a" },
    Host := "example.com", Header := ⟨[("Origin", ["https://app.test"])]⟩, Body := none,
    RouteParam := "http://example.com/a" }

/-- A 404 from upstream that carries its own `Access-Control-Allow-Origin`. -/
def sampleNotFound : Response :=
  { StatusCode := 404, Status := "404 Not Found",
    Header := ⟨[("Access-Control-Allow-Origin", ["https://only.test"]),
                ("Content-Type", ["text/plain"])]⟩,
    Body := "not found", Request := sampleRequest }

/-- A 307 from upstream without a `Location` header. -/
def sampleNoLocation : Response :=
  { StatusCode := 307, Status := "307 Temporary Redirect",
    Header := ⟨[("Content-Type", ["text/plain"])]⟩, Body := "", Request := sampleRequest }

/-- A 308 from upstream that redirects to the URL it was requested at. -/
def sampleSelfRedirect : Response :=
  { StatusCode := 308, Status := "308 Permanent Redirect",
    Header := ⟨[("Location", ["/a"])]⟩, Body := "moved", Request := sampleRequest }

/-- A preflight for `example.com/data` that asks for a method and for headers. -/
def samplePreflight : Request :=
  { Method := "OPTIONS", URL := { Path := "/example.com/data" }, Host := "localhost:8080",
    Header := ⟨[("Access-Control-Request-Method", ["PUT"]),
                ("Access-Control-Request-Headers", ["X-Custom, Content-Type"])]⟩,
    Body := none, RouteParam := "example.com/data" }

/-- A preflight whose target holds a tab, sent as `OPTIONS /example.com/a%09b`. -/
def sampleBadPreflight : Request :=
  { Method := "OPTIONS", URL := { Path := "/example.com/a\tb" }, Host := "localhost:8080",
    Header := ⟨[("Origin", ["https://app.test"])]⟩, Body := none,
    RouteParam := "example.com/a\tb" }

/-- An inbound `POST /example.com/api?x=1&y=%20` with cookies smuggled in. -/
def sampleInbound : Request :=
  { Method := "POST", URL := { Path := "/example.com/api", RawQuery := "x=1&y=%20" },
    Host := "localhost:8080",
    Header := ⟨[("Origin", ["https://app.test"]), ("Set-Cookie", ["sid=1"]),
                ("Set-Cookie2", ["sid=2"]), ("Accept", ["*/*"])]⟩,
    Body := some "payload", RouteParam := "example.com/api" }

/-- The header map of a request that may go upstream: names in canonical form
and no `Set-Cookie` or `Set-Cookie2` under any spelling. -/
def CookieFree (h : Header) : Prop :=
  h.CanonicalKeys ∧ ¬ h.Carries "set-cookie" ∧ ¬ h.Carries "set-cookie2"

instance (h : Header) (name : String) : Decidable (h.Carries name) := by
  unfold Header.Carries; infer_instance

instance (h : Header) : Decidable h.CanonicalKeys := by
  unfold Header.CanonicalKeys; infer_instance

instance (h : Header) : Decidable (CookieFree h) := by
  unfold CookieFree; infer_instance

/-- A 307 reply that redirects to `location`. -/
def redirectReply (location : String) : Reply :=
  { StatusCode := 307, Status := "307 Temporary Redirect",
    Header := ⟨[("Location", [location])]⟩, Body := "" }

/-- A 200 reply. -/
def okReply : Reply :=
  { StatusCode := 200, Status := "200 OK", Header := ⟨[("Content-Type", ["text/plain"])]⟩,
    Body := "done" }

/-- An upstream on which `/1` redirects to `/2`, `/2` to `/3`, `/3` to `/4`,
each with a relative `Location`, and every other path answers 200. -/
def hopping : Unit → Request → Except String Reply × Unit :=
  fun _ req =>
    if req.URL.Path = "/1" then (.ok (redirectReply "/2"), ())
    else if req.URL.Path = "/2" then (.ok (redirectReply "/3"), ())
    else if req.URL.Path = "/3" then (.ok (redirectReply "/4"), ())
    else (.ok okReply, ())

/-- The follow-up request for `http://host/path` in a chain started by `sampleRequest`. -/
def hopRequest (host path : String) : Request :=
  { Method := "GET", URL := { Scheme := "http", Host := host, Path := path }, Host := host,
    Header := ⟨[("Origin", ["https://app.test"])]⟩, Body := none }

/-- The first response of a chain: `sampleRequest` answered by a redirect to `location`. -/
def chainStart (location : String) : Response :=
  (redirectReply location).toResponse sampleRequest

/-- An upstream on which `http://other.com/b` redirects to the relative
`/new/path` and everything else answers 200. -/
def crossHost : Unit → Request → Except String Reply × Unit :=
  fun _ req =>
    if req.URL.Host = "other.com" ∧ req.URL.Path = "/b" then (.ok (redirectReply "/new/path"), ())
    else (.ok okReply, ())

/-! ## Header lemmas -/

theorem Header.values_Del (h : Header) (key k : String) :
    (h.Del key).values k = if k = CanonicalMIMEHeaderKey key then [] else h.values k := by
  obtain ⟨es⟩ := h
  simp only [Header.Del, Header.values]
  induction es with
  | nil => simp [lookup]
  | cons e es ih =>
    by_cases hk : e.1 = CanonicalMIMEHeaderKey key
    · by_cases hkk : k = CanonicalMIMEHeaderKey key
      · simpa [List.filter_cons, hk, hkk, lookup] using ih
      · have hne : ¬ (CanonicalMIMEHeaderKey key = k) := fun h => hkk h.symm
        simpa [List.filter_cons, hk, hkk, hne, lookup] using ih
    · by_cases hek : e.1 = k
      · have hkk : ¬ (k = CanonicalMIMEHeaderKey key) := fun h => hk (hek.trans h)
        simp [List.filter_cons, hk, hek, hkk, lookup]
      · simpa [List.filter_cons, hk, hek, lookup] using ih

theorem Header.values_Set (h : Header) (key value k : String) :
    (h.Set key value).values k =
      if k = CanonicalMIMEHeaderKey key then [value] else h.values k := by
  by_cases hk : k = CanonicalMIMEHeaderKey key
  · simp [Header.Set, Header.values, hk, lookup]
  · have hne : ¬ (CanonicalMIMEHeaderKey key = k) := fun h => hk h.symm
    have := Header.values_Del h key k
    simp only [hk, if_false] at this
    simpa [Header.Set, Header.values, lookup, hk, hne] using this

/-! ## The loop, case by case -/

section Loop

variable {σ : Type} (L : NetURL) (Do : σ → Request → Except String Reply × σ)
  (cfg : Config) (w : σ) (c : Int) (prev : String) (resp : Response)

theorem redirectLoop_exit (h : ¬ Redirecting cfg resp) :
    redirectLoop L Do cfg w c prev resp = ⟨.ok (stampResponse resp), [], w⟩ := by
  rw [redirectLoop]
  unfold Redirecting at h
  simp [h]

theorem redirectLoop_limit (h : Redirecting cfg resp) (hc : cfg.maxRedirects ≤ c) :
    redirectLoop L Do cfg w c prev resp = ⟨.error (limitError cfg.maxRedirects), [], w⟩ := by
  rw [redirectLoop]
  unfold Redirecting at h
  simp [h, hc]

theorem redirectLoop_noLocation (h : Redirecting cfg resp) (hc : c < cfg.maxRedirects)
    (hloc : resp.Header.Get "Location" = "") :
    redirectLoop L Do cfg w c prev resp = ⟨.ok (stampResponse resp), [], w⟩ := by
  rw [redirectLoop]
  unfold Redirecting at h
  simp [h, hc, hloc]

theorem redirectLoop_targetError (h : Redirecting cfg resp) (hc : c < cfg.maxRedirects)
    (hloc : resp.Header.Get "Location" ≠ "") (e : String)
    (ht : redirectTarget L resp (resp.Header.Get "Location") = .error e) :
    redirectLoop L Do cfg w c prev resp = ⟨.error e, [], w⟩ := by
  rw [redirectLoop]
  unfold Redirecting at h
  simp [h, hc, hloc, ht]

theorem redirectLoop_same (h : Redirecting cfg resp) (hc : c < cfg.maxRedirects)
    (hloc : resp.Header.Get "Location" ≠ "")
    (ht : redirectTarget L resp (resp.Header.Get "Location") = .ok prev) :
    redirectLoop L Do cfg w c prev resp =
      ⟨.ok (stampResponse (loopDetected resp prev)), [], w⟩ := by
  rw [redirectLoop]
  unfold Redirecting at h
  simp [h, hc, hloc, ht]

theorem redirectLoop_requestError (h : Redirecting cfg resp) (hc : c < cfg.maxRedirects)
    (hloc : resp.Header.Get "Location" ≠ "") (url : String)
    (ht : redirectTarget L resp (resp.Header.Get "Location") = .ok url) (hne : url ≠ prev)
    (e : String) (hreq : followUp L resp url = .error e) :
    redirectLoop L Do cfg w c prev resp = ⟨.error e, [], w⟩ := by
  rw [redirectLoop]
  unfold Redirecting at h
  unfold followUp at hreq
  split at hreq
  · rename_i e1 he
    simp only [Except.error.injEq] at hreq
    simp [h, hc, hloc, ht, hne, he, hreq]
  · simp at hreq

theorem redirectLoop_doError (h : Redirecting cfg resp) (hc : c < cfg.maxRedirects)
    (hloc : resp.Header.Get "Location" ≠ "") (url : String)
    (ht : redirectTarget L resp (resp.Header.Get "Location") = .ok url) (hne : url ≠ prev)
    (req : Request) (hreq : followUp L resp url = .ok req)
    (e : String) (w1 : σ) (hdo : Do w req = (.error e, w1)) :
    redirectLoop L Do cfg w c prev resp = ⟨.error e, [req], w1⟩ := by
  rw [redirectLoop]
  unfold Redirecting at h
  unfold followUp at hreq
  split at hreq
  · simp at hreq
  · rename_i req0 he
    simp only [Except.ok.injEq] at hreq
    subst hreq
    simp [h, hc, hloc, ht, hne, he, hdo]

theorem redirectLoop_follow (h : Redirecting cfg resp) (hc : c < cfg.maxRedirects)
    (hloc : resp.Header.Get "Location" ≠ "") (url : String)
    (ht : redirectTarget L resp (resp.Header.Get "Location") = .ok url) (hne : url ≠ prev)
    (req : Request) (hreq : followUp L resp url = .ok req)
    (reply : Reply) (w1 : σ) (hdo : Do w req = (.ok reply, w1)) :
    redirectLoop L Do cfg w c prev resp =
      { redirectLoop L Do cfg w1 (c + 1) url (reply.toResponse req) with
        issued := req :: (redirectLoop L Do cfg w1 (c + 1) url (reply.toResponse req)).issued } := by
  rw [redirectLoop]
  unfold Redirecting at h
  unfold followUp at hreq
  split at hreq
  · simp at hreq
  · rename_i req0 he
    simp only [Except.ok.injEq] at hreq
    subst hreq
    simp [h, hc, hloc, ht, hne, he, hdo]

end Loop

theorem stampResponse_isStamped (resp : Response) : IsStamped (stampResponse resp) resp := by
  have e1 : CanonicalMIMEHeaderKey "access-control-allow-origin" =
      "Access-Control-Allow-Origin" := by decide
  have e2 : CanonicalMIMEHeaderKey "access-control-max-age" = "Access-Control-Max-Age" := by
    decide
  refine ⟨rfl, rfl, rfl, rfl, ⟨?_, ?_⟩, ?_⟩
  · simp [stampResponse, Header.values_Set, e1, e2]
  · simp [stampResponse, Header.values_Set, e1, e2]
  · intro key h1 h2
    simp [stampResponse, Header.values_Set, e1, e2, h1, h2]

/-! ## Claims -/

/-- C5: when redirect-following is disabled, or the upstream status is neither
307 nor 308, `modifyResponse` issues no upstream request, leaves the upstream
state alone and returns success with the same status, body and headers, except
that `Access-Control-Allow-Origin` is exactly `*` and `Access-Control-Max-Age`
exactly `3000000`, whatever the upstream sent under those names. -/
theorem C5_passthrough {σ : Type} (L : NetURL) (Do : σ → Request → Except String Reply × σ)
    (cfg : Config) (w : σ) (resp : Response)
    (h : cfg.enableRedirect = false ∨ (resp.StatusCode ≠ 307 ∧ resp.StatusCode ≠ 308)) :
    ∃ out : Response,
      modifyResponse L Do cfg w resp = ⟨.ok out, [], w⟩ ∧ IsStamped out resp := by
  refine ⟨stampResponse resp, ?_, stampResponse_isStamped resp⟩
  apply redirectLoop_exit
  rintro ⟨he, hs⟩
  rcases h with h | ⟨h1, h2⟩
  · simp [h] at he
  · rcases hs with hs | hs
    · exact h1 hs
    · exact h2 hs

theorem C5_passthrough_witness :
    ∃ out : Response,
      modifyResponse goURL refusing ⟨true, 3⟩ () sampleNotFound = ⟨.ok out, [], ()⟩ ∧
        IsStamped out sampleNotFound :=
  C5_passthrough goURL refusing ⟨true, 3⟩ () sampleNotFound (Or.inr ⟨by decide, by decide⟩)

/-- C9, as the code has it: with redirect-following enabled, in every loop
state with `redirectCount < maxRedirects`, a 307/308 response whose `Location`
header is empty ends the loop at once: success, no upstream request, and the
response unchanged apart from the two CORS headers. -/
theorem C9_empty_location {σ : Type} (L : NetURL)
    (Do : σ → Request → Except String Reply × σ) (cfg : Config) (w : σ)
    (redirectCount : Int) (previousURL : String) (resp : Response)
    (henable : cfg.enableRedirect = true)
    (hstatus : resp.StatusCode = 307 ∨ resp.StatusCode = 308)
    (hcount : redirectCount < cfg.maxRedirects)
    (hloc : resp.Header.Get "Location" = "") :
    ∃ out : Response,
      redirectLoop L Do cfg w redirectCount previousURL resp = ⟨.ok out, [], w⟩ ∧
        IsStamped out resp ∧
        (redirectCount = 0 → modifyResponse L Do cfg w resp = ⟨.ok out, [], w⟩) := by
  refine ⟨stampResponse resp,
    redirectLoop_noLocation L Do cfg w redirectCount previousURL resp ⟨henable, hstatus⟩ hcount
      hloc, stampResponse_isStamped resp, ?_⟩
  intro h0
  subst h0
  exact redirectLoop_noLocation L Do cfg w 0 _ resp ⟨henable, hstatus⟩ hcount hloc

theorem C9_empty_location_witness :
    ∃ out : Response,
      redirectLoop goURL refusing ⟨true, 3⟩ () 2 "http://example.com/a" sampleNoLocation =
          ⟨.ok out, [], ()⟩ ∧
        IsStamped out sampleNoLocation ∧
        ((2 : Int) = 0 →
          modifyResponse goURL refusing ⟨true, 3⟩ () sampleNoLocation = ⟨.ok out, [], ()⟩) :=
  C9_empty_location goURL refusing ⟨true, 3⟩ () 2 "http://example.com/a" sampleNoLocation
    (by decide) (by decide) (by decide) (by decide)

/-- C9 fails as stated: with `maxRedirects = 0` a 307 without `Location` makes
`modifyResponse` return the redirect-limit error. -/
theorem C9_counterexample :
    sampleNoLocation.StatusCode = 307 ∧ sampleNoLocation.Header.Get "Location" = "" ∧
      (modifyResponse goURL refusing ⟨true, 0⟩ () sampleNoLocation).result =
        .error "maximum redirect limit (0) reached" := by
  refine ⟨by decide, by decide, ?_⟩
  rw [modifyResponse, redirectLoop_limit goURL refusing ⟨true, 0⟩ () 0 _ sampleNoLocation
    (by decide) (by decide)]
  decide

/-- C2: with redirect-following enabled and `redirectCount < maxRedirects`, a
307/308 response whose redirect URL resolves to `previousURL` ends the loop
without any upstream request: `modifyResponse` returns success with a response
of status 400 whose body is the loop message followed by the looping URL, and
that carries the two CORS headers. -/
theorem C2_loop_detected {σ : Type} (L : NetURL)
    (Do : σ → Request → Except String Reply × σ) (cfg : Config) (w : σ)
    (redirectCount : Int) (previousURL : String) (resp : Response)
    (henable : cfg.enableRedirect = true)
    (hstatus : resp.StatusCode = 307 ∨ resp.StatusCode = 308)
    (hcount : redirectCount < cfg.maxRedirects)
    (hloc : resp.Header.Get "Location" ≠ "")
    (htarget : redirectTarget L resp (resp.Header.Get "Location") = .ok previousURL) :
    ∃ out : Response,
      redirectLoop L Do cfg w redirectCount previousURL resp = ⟨.ok out, [], w⟩ ∧
        out.StatusCode = 400 ∧
        out.Body = "redirect loop detected: redirect URL is the same as previous: " ++
          previousURL ∧
        previousURL.data <:+: out.Body.data ∧
        HasCORS out.Header ∧
        (redirectCount = 0 → previousURL = L.urlString resp.Request.URL →
          modifyResponse L Do cfg w resp = ⟨.ok out, [], w⟩) := by
  refine ⟨stampResponse (loopDetected resp previousURL),
    redirectLoop_same L Do cfg w redirectCount previousURL resp ⟨henable, hstatus⟩ hcount hloc
      htarget, rfl, rfl, ?_, (stampResponse_isStamped _).2.2.2.2.1, ?_⟩
  · show previousURL.data <:+: (_ ++ previousURL).data
    rw [String.data_append]
    exact (List.suffix_append _ _).isInfix
  · intro h0 hp
    subst h0
    unfold modifyResponse
    rw [← hp]
    exact redirectLoop_same L Do cfg w 0 previousURL resp ⟨henable, hstatus⟩ hcount hloc htarget

theorem C2_loop_detected_witness :
    ∃ out : Response,
      redirectLoop goURL refusing ⟨true, 3⟩ () 0 "http://example.com/a" sampleSelfRedirect =
          ⟨.ok out, [], ()⟩ ∧
        out.StatusCode = 400 ∧
        out.Body = "redirect loop detected: redirect URL is the same as previous: " ++
          "http://example.com/a" ∧
        "http://example.com/a".data <:+: out.Body.data ∧
        HasCORS out.Header ∧
        modifyResponse goURL refusing ⟨true, 3⟩ () sampleSelfRedirect = ⟨.ok out, [], ()⟩ := by
  obtain ⟨out, h1, h2, h3, h4, h5, h6⟩ :=
    C2_loop_detected goURL refusing ⟨true, 3⟩ () 0 "http://example.com/a" sampleSelfRedirect
      (by decide) (by decide) (by decide) (by decide) (by decide)
  exact ⟨out, h1, h2, h3, h4, h5, h6 rfl (by decide)⟩

theorem setCORSHeaders_hasCORS (w : ResponseWriter) (r : Request) :
    HasCORS (setCORSHeaders w r).header := by
  have e1 : CanonicalMIMEHeaderKey "access-control-allow-origin" =
      "Access-Control-Allow-Origin" := by decide
  have e2 : CanonicalMIMEHeaderKey "access-control-max-age" = "Access-Control-Max-Age" := by
    decide
  have e3 : CanonicalMIMEHeaderKey "access-control-allow-methods" =
      "Access-Control-Allow-Methods" := by decide
  have e4 : CanonicalMIMEHeaderKey "access-control-request-headers" =
      "Access-Control-Request-Headers" := by decide
  unfold HasCORS setCORSHeaders
  constructor <;> (simp only []; split_ifs <;> simp [Header.values_Set, e1, e2, e3, e4])

/-- C3: the handler checks, in this order: the target does not parse, then
422 `invalid cors proxy url`; else the method is OPTIONS, then the preflight
response; else `requireOrigin` holds and `Origin` is empty, then 422
`origin header is required on the request`; else `proxy.ServeHTTP` is called.
In the first three cases the handler answers itself, CORS headers set, without
calling the proxy. -/
theorem C3_handler_order (L : NetURL) (requireOrigin : Bool) (r : Request) :
    ((∃ e, urlParse L (corsURLOf r) = .error e) →
      ∃ w, corsProxy L requireOrigin ResponseWriter.fresh r = .responded w ∧
        w.status = some 422 ∧ w.body = "invalid cors proxy url" ∧ HasCORS w.header) ∧
    ((∃ u, urlParse L (corsURLOf r) = .ok u) → r.Method = "OPTIONS" →
      corsProxy L requireOrigin ResponseWriter.fresh r =
        .responded (handlePreflight ResponseWriter.fresh r)) ∧
    ((∃ u, urlParse L (corsURLOf r) = .ok u) → r.Method ≠ "OPTIONS" →
      requireOrigin = true → r.Header.Get "origin" = "" →
      ∃ w, corsProxy L requireOrigin ResponseWriter.fresh r = .responded w ∧
        w.status = some 422 ∧ w.body = "origin header is required on the request" ∧
        HasCORS w.header) ∧
    ((∃ u, urlParse L (corsURLOf r) = .ok u) → r.Method ≠ "OPTIONS" →
      ¬ (requireOrigin = true ∧ r.Header.Get "origin" = "") →
      corsProxy L requireOrigin ResponseWriter.fresh r = .proxied ResponseWriter.fresh r) := by
  have hstatus : ∀ body, (respondError ResponseWriter.fresh r body).status = some 422 := by
    intro body
    simp only [respondError, ResponseWriter.Write, ResponseWriter.WriteHeader, setCORSHeaders,
      ResponseWriter.fresh]
    split_ifs <;> rfl
  have hbody : ∀ body, (respondError ResponseWriter.fresh r body).body = body := by
    intro body
    simp only [respondError, ResponseWriter.Write, ResponseWriter.WriteHeader, setCORSHeaders,
      ResponseWriter.fresh]
    split_ifs <;> simp
  have hcors : ∀ body, HasCORS (respondError ResponseWriter.fresh r body).header := by
    intro body
    have h := setCORSHeaders_hasCORS ResponseWriter.fresh r
    have e : (respondError ResponseWriter.fresh r body).header =
        (setCORSHeaders ResponseWriter.fresh r).header := by
      simp only [respondError, ResponseWriter.Write, ResponseWriter.WriteHeader]
      split <;> split <;> rfl
    rw [e]
    exact h
  refine ⟨?_, ?_, ?_, ?_⟩
  · rintro ⟨e, he⟩
    exact ⟨_, by simp [corsProxy, he], hstatus _, hbody _, hcors _⟩
  · rintro ⟨u, hu⟩ hm
    simp [corsProxy, hu, hm]
  · rintro ⟨u, hu⟩ hm hr ho
    exact ⟨_, by simp [corsProxy, hu, hm, hr, ho], hstatus _, hbody _, hcors _⟩
  · rintro ⟨u, hu⟩ hm hno
    have : ¬ (requireOrigin = true ∧ r.Header.Get "origin" = "") := hno
    simp only [corsProxy, hu, hm, if_false]
    by_cases hr : requireOrigin = true
    · have ho : ¬ r.Header.Get "origin" = "" := fun ho => hno ⟨hr, ho⟩
      simp [hr, ho]
    · simp [hr]

theorem C3_handler_order_witness :
    ∃ w, corsProxy goURL true ResponseWriter.fresh
        { sampleInbound with Header := ⟨[("Accept", ["*/*"])]⟩ } = .responded w ∧
      w.status = some 422 ∧ w.body = "origin header is required on the request" ∧
      HasCORS w.header :=
  (C3_handler_order goURL true { sampleInbound with Header := ⟨[("Accept", ["*/*"])]⟩ }).2.2.1
    ⟨{ Scheme := "http", Host := "example.com", Path := "/api" }, by decide⟩
    (by decide) rfl (by decide)

/-- C4, as the code has it: an OPTIONS request whose target parses is answered
by the handler itself, for both values of `requireOrigin` and whatever its
`Origin` header: status 200, empty body, `Access-Control-Allow-Origin: *` and
`Access-Control-Max-Age: 3000000` set, and the proxy is not called. -/
theorem C4_preflight (L : NetURL) (requireOrigin : Bool) (r : Request)
    (hmethod : r.Method = "OPTIONS") (u : URL) (hparse : urlParse L (corsURLOf r) = .ok u) :
    ∃ w, corsProxy L requireOrigin ResponseWriter.fresh r = .responded w ∧
      w.status = some 200 ∧ w.body = "" ∧ HasCORS w.header := by
  refine ⟨handlePreflight ResponseWriter.fresh r, by simp [corsProxy, hparse, hmethod], ?_, ?_, ?_⟩
  · simp only [handlePreflight, ResponseWriter.WriteHeader, setCORSHeaders, ResponseWriter.fresh]
    split_ifs <;> rfl
  · simp only [handlePreflight, ResponseWriter.WriteHeader, setCORSHeaders, ResponseWriter.fresh]
    split_ifs <;> rfl
  · have e : (handlePreflight ResponseWriter.fresh r).header =
        (setCORSHeaders ResponseWriter.fresh r).header := by
      simp only [handlePreflight, ResponseWriter.WriteHeader]
      split <;> rfl
    rw [e]
    exact setCORSHeaders_hasCORS _ _

theorem C4_preflight_witness :
    ∃ w, corsProxy goURL true ResponseWriter.fresh samplePreflight = .responded w ∧
      w.status = some 200 ∧ w.body = "" ∧ HasCORS w.header :=
  C4_preflight goURL true samplePreflight (by decide)
    { Scheme := "http", Host := "example.com", Path := "/data" } (by decide)

/-- C4 fails as stated: an OPTIONS request whose target does not parse (it
holds a control byte) is answered with status 422 and a non-empty body. -/
theorem C4_counterexample :
    sampleBadPreflight.Method = "OPTIONS" ∧
      corsProxy goURL false ResponseWriter.fresh sampleBadPreflight =
        .responded (respondError ResponseWriter.fresh sampleBadPreflight
          "invalid cors proxy url") ∧
      (respondError ResponseWriter.fresh sampleBadPreflight "invalid cors proxy url").status =
        some 422 ∧
      (respondError ResponseWriter.fresh sampleBadPreflight "invalid cors proxy url").body =
        "invalid cors proxy url" := by
  decide

/-- C10, the code at a preflight that sends `Access-Control-Request-Headers`:
`Access-Control-Allow-Methods` mirrors the requested method, but the requested
headers are written back under the name `Access-Control-Request-Headers` and
`Access-Control-Allow-Headers` stays unset. -/
theorem C10_allow_headers_missing :
    samplePreflight.Header.Get "Access-Control-Request-Headers" = "X-Custom, Content-Type" ∧
      (handlePreflight ResponseWriter.fresh samplePreflight).header.Get
        "Access-Control-Allow-Methods" = "PUT" ∧
      (handlePreflight ResponseWriter.fresh samplePreflight).header.values
        "Access-Control-Allow-Headers" = [] ∧
      (handlePreflight ResponseWriter.fresh samplePreflight).header.values
        "Access-Control-Request-Headers" = ["X-Custom, Content-Type"] := by
  decide

theorem data_http_append (s : String) :
    ("http://" ++ s).data = 'h' :: 't' :: 't' :: 'p' :: ':' :: '/' :: '/' :: s.data := by
  rw [String.data_append]
  rfl

theorem urlParse_http_scheme (L : NetURL) (s : String) (u : URL)
    (h : urlParse L ("http://" ++ s) = .ok u) : u.Scheme = "http" := by
  have hg : ∀ t, getScheme ('h' :: 't' :: 't' :: 'p' :: ':' :: '/' :: '/' :: t) =
      .ok (['h', 't', 't', 'p'], '/' :: '/' :: t) := fun _ => rfl
  have hne : ∀ t : List Char, ¬ ('h' :: 't' :: 't' :: 'p' :: ':' :: '/' :: '/' :: t = ['*']) := by
    intro t; simp
  have hl : String.mk (List.map lowerByte ['h', 't', 't', 'p']) = "http" := by decide
  unfold urlParse at h
  rw [data_http_append] at h
  simp only [cutList] at h
  simp +decide only [if_false, if_true] at h
  simp only [hg, hne, if_false, hl] at h
  split at h
  · simp at h
  · cases hp : L.parseHier "http" ⟨'/' :: '/' :: (cutList '#' s.data).1⟩ with
    | error e => simp [hp] at h
    | ok url =>
      simp only [hp] at h
      split at h
      · simp only [Except.ok.injEq] at h
        rw [← h]
      · cases hf : L.parseFragment ⟨(cutList '#' s.data).2.getD []⟩ with
        | error e => simp [hf] at h
        | ok f =>
          simp only [hf, Except.ok.injEq] at h
          rw [← h]

/-- C6: when the target string parses after normalisation, the director sets
scheme, host and path of the outbound URL and the outbound `Host` to those of
the parsed target and leaves method, body and raw query string as they were;
a target without `http://` or `https://` in front is parsed with `http://`
prepended and the outbound scheme is then `http`. -/
theorem C6_director (L : NetURL) (req : Request) (u : URL)
    (hparse : urlParse L (corsURLOf req) = .ok u) :
    (director L req).URL.Scheme = u.Scheme ∧ (director L req).URL.Host = u.Host ∧
      (director L req).URL.Path = u.Path ∧ (director L req).Host = u.Host ∧
      (director L req).Method = req.Method ∧ (director L req).Body = req.Body ∧
      (director L req).URL.RawQuery = req.URL.RawQuery ∧
      (hasScheme req.RouteParam = true → corsURLOf req = req.RouteParam) ∧
      (hasScheme req.RouteParam = false →
        corsURLOf req = "http://" ++ req.RouteParam ∧ (director L req).URL.Scheme = "http") := by
  have hd : director L req =
      { req with
        URL := { req.URL with Scheme := u.Scheme, Host := u.Host, Path := u.Path }
        Host := u.Host
        Header := (req.Header.Del "set-cookie").Del "set-cookie2" } := by
    simp [director, hparse]
  refine ⟨by rw [hd], by rw [hd], by rw [hd], by rw [hd], by rw [hd], by rw [hd], by rw [hd],
    ?_, ?_⟩
  · intro hs
    simp [corsURLOf, hs]
  · intro hs
    have hc : corsURLOf req = "http://" ++ req.RouteParam := by simp [corsURLOf, hs]
    refine ⟨hc, ?_⟩
    rw [hd]
    rw [hc] at hparse
    exact urlParse_http_scheme L _ u hparse

theorem C6_director_witness :
    (director goURL sampleInbound).URL.Scheme = "http" ∧
      (director goURL sampleInbound).URL.Host = "example.com" ∧
      (director goURL sampleInbound).URL.Path = "/api" ∧
      (director goURL sampleInbound).Host = "example.com" ∧
      (director goURL sampleInbound).Method = sampleInbound.Method ∧
      (director goURL sampleInbound).Body = sampleInbound.Body ∧
      (director goURL sampleInbound).URL.RawQuery = sampleInbound.URL.RawQuery ∧
      (hasScheme sampleInbound.RouteParam = true →
        corsURLOf sampleInbound = sampleInbound.RouteParam) ∧
      (hasScheme sampleInbound.RouteParam = false →
        corsURLOf sampleInbound = "http://" ++ sampleInbound.RouteParam ∧
          (director goURL sampleInbound).URL.Scheme = "http") :=
  C6_director goURL sampleInbound { Scheme := "http", Host := "example.com", Path := "/api" }
    (by decide)

/-! ### Headers of the upstream requests -/

theorem Header.mem_Del {h : Header} {key : String} {e : String × List String} :
    e ∈ (h.Del key).entries ↔ e ∈ h.entries ∧ e.1 ≠ CanonicalMIMEHeaderKey key := by
  simp [Header.Del, List.mem_filter]

theorem Header.mem_Add {h : Header} {key value : String} {e : String × List String}
    (he : e ∈ (h.Add key value).entries) :
    e.1 = CanonicalMIMEHeaderKey key ∨ e ∈ h.entries := by
  simp only [Header.Add, List.mem_cons] at he
  rcases he with he | he
  · left; rw [he]
  · right; exact (Header.mem_Del.mp he).1

theorem mem_addAll (key : String) (vs : List String) :
    ∀ (h : Header) (e : String × List String),
      e ∈ (vs.foldl (fun acc vv => acc.Add key vv) h).entries →
      e.1 = CanonicalMIMEHeaderKey key ∨ e ∈ h.entries := by
  induction vs with
  | nil => intro h e he; right; simpa using he
  | cons v vs ih =>
    intro h e he
    rw [List.foldl_cons] at he
    rcases ih _ e he with h1 | h1
    · left; exact h1
    · exact Header.mem_Add h1

theorem mem_copyHeaders (src : List (String × List String)) :
    ∀ (dst : Header) (e : String × List String),
      e ∈ (src.foldl (fun acc e => e.2.foldl (fun acc vv => acc.Add e.1 vv) acc) dst).entries →
      (∃ s ∈ src, e.1 = CanonicalMIMEHeaderKey s.1) ∨ e ∈ dst.entries := by
  induction src with
  | nil => intro dst e he; right; simpa using he
  | cons s src ih =>
    intro dst e he
    rw [List.foldl_cons] at he
    rcases ih _ e he with ⟨s1, hs1, h1⟩ | h1
    · left; exact ⟨s1, List.mem_cons_of_mem _ hs1, h1⟩
    · rcases mem_addAll s.1 s.2 dst e h1 with h2 | h2
      · left; exact ⟨s, List.mem_cons_self _ _, h2⟩
      · right; exact h2

theorem newRequest_ok {L : NetURL} {method url : String} {req0 : Request}
    (h : newRequest L method url = .ok req0) :
    ∃ u, urlParse L url = .ok u ∧
      req0 = { Method := if method = "" then "GET" else method,
               URL := { u with Host := removeEmptyPort u.Host },
               Host := removeEmptyPort u.Host, Header := Header.empty, Body := none } := by
  unfold newRequest at h
  simp only [] at h
  by_cases hv : validMethod (if method = "" then "GET" else method) = true
  · cases hp : urlParse L url with
    | error e => simp [hv, hp] at h
    | ok u =>
      simp only [hv, hp, Bool.not_true, Bool.false_eq_true, if_false, Except.ok.injEq] at h
      exact ⟨u, rfl, h.symm⟩
  · simp [hv] at h

theorem followUp_ok {L : NetURL} {resp : Response} {url : String} {req : Request}
    (h : followUp L resp url = .ok req) :
    ∃ u, urlParse L url = .ok u ∧
      req = { Method := if resp.Request.Method = "" then "GET" else resp.Request.Method,
              URL := { u with Host := removeEmptyPort u.Host },
              Host := removeEmptyPort u.Host,
              Header := copyHeaders resp.Request.Header Header.empty, Body := none } := by
  unfold followUp at h
  cases h0 : newRequest L resp.Request.Method url with
  | error e => simp [h0] at h
  | ok req0 =>
    obtain ⟨u, hu, hreq0⟩ := newRequest_ok h0
    simp only [h0, Except.ok.injEq] at h
    refine ⟨u, hu, ?_⟩
    rw [← h, hreq0]

theorem followUp_header {L : NetURL} {resp : Response} {url : String} {req : Request}
    (h : followUp L resp url = .ok req) :
    req.Header = copyHeaders resp.Request.Header Header.empty := by
  obtain ⟨u, _, hreq⟩ := followUp_ok h
  rw [hreq]

theorem followUp_cookieFree {L : NetURL} {resp : Response} {url : String} {req : Request}
    (hclean : CookieFree resp.Request.Header) (h : followUp L resp url = .ok req) :
    CookieFree req.Header := by
  obtain ⟨hk, h1, h2⟩ := hclean
  have hmem : ∀ e ∈ req.Header.entries, ∃ s ∈ resp.Request.Header.entries, e.1 = s.1 := by
    intro e he
    rw [followUp_header h] at he
    rcases mem_copyHeaders _ _ e he with ⟨s, hs, hes⟩ | he
    · exact ⟨s, hs, by rw [hes, hk s hs]⟩
    · simp [Header.empty] at he
  refine ⟨?_, ?_, ?_⟩
  · intro e he
    obtain ⟨s, hs, hes⟩ := hmem e he
    rw [hes]; exact hk s hs
  · rintro ⟨e, he, hc⟩
    obtain ⟨s, hs, hes⟩ := hmem e he
    exact h1 ⟨s, hs, by rw [← hes]; exact hc⟩
  · rintro ⟨e, he, hc⟩
    obtain ⟨s, hs, hes⟩ := hmem e he
    exact h2 ⟨s, hs, by rw [← hes]; exact hc⟩

/-- What holds of the request behind the first response and is kept by every
follow-up request holds of every request the loop issues. -/
theorem redirectLoop_issued_inv {σ : Type} (L : NetURL)
    (Do : σ → Request → Except String Reply × σ) (cfg : Config) (P : Request → Prop)
    (hstep : ∀ resp url req, P resp.Request → followUp L resp url = .ok req → P req) :
    ∀ (n : Nat) (c : Int) (w : σ) (prev : String) (resp : Response),
      (cfg.maxRedirects - c).toNat = n → P resp.Request →
      ∀ q ∈ (redirectLoop L Do cfg w c prev resp).issued, P q := by
  intro n
  induction n with
  | zero =>
    intro c w prev resp hn _ q hq
    by_cases hR : Redirecting cfg resp
    · rw [redirectLoop_limit L Do cfg w c prev resp hR (by omega)] at hq
      simp at hq
    · rw [redirectLoop_exit L Do cfg w c prev resp hR] at hq
      simp at hq
  | succ n ih =>
    intro c w prev resp hn hP q hq
    have hc : c < cfg.maxRedirects := by omega
    by_cases hR : Redirecting cfg resp
    · by_cases hloc : resp.Header.Get "Location" = ""
      · rw [redirectLoop_noLocation L Do cfg w c prev resp hR hc hloc] at hq
        simp at hq
      · cases ht : redirectTarget L resp (resp.Header.Get "Location") with
        | error e =>
          rw [redirectLoop_targetError L Do cfg w c prev resp hR hc hloc e ht] at hq
          simp at hq
        | ok url =>
          by_cases hne : url = prev
          · subst hne
            rw [redirectLoop_same L Do cfg w c url resp hR hc hloc ht] at hq
            simp at hq
          · cases hreq : followUp L resp url with
            | error e =>
              rw [redirectLoop_requestError L Do cfg w c prev resp hR hc hloc url ht hne e
                hreq] at hq
              simp at hq
            | ok req =>
              have hPreq : P req := hstep resp url req hP hreq
              rcases hdo : Do w req with ⟨res, w1⟩
              cases res with
              | error e =>
                rw [redirectLoop_doError L Do cfg w c prev resp hR hc hloc url ht hne req hreq
                  e w1 hdo] at hq
                simp only [List.mem_singleton] at hq
                rw [hq]; exact hPreq
              | ok reply =>
                rw [redirectLoop_follow L Do cfg w c prev resp hR hc hloc url ht hne req hreq
                  reply w1 hdo] at hq
                simp only [List.mem_cons] at hq
                rcases hq with hq | hq
                · rw [hq]; exact hPreq
                · exact ih (c + 1) w1 url (reply.toResponse req) (by omega) hPreq q hq
    · rw [redirectLoop_exit L Do cfg w c prev resp hR] at hq
      simp at hq

/-- C7: for an inbound request that the handler forwards (header names in
canonical form, as the server parses them), the request the director produces
carries neither `set-cookie` nor `set-cookie2` and keeps every other inbound
header; and whenever the request behind the response given to `modifyResponse`
is free of the two headers, as the director leaves it, so is every follow-up
request `modifyResponse` issues, however long the redirect chain. -/
theorem C7_no_set_cookie {σ : Type} (L : NetURL)
    (Do : σ → Request → Except String Reply × σ) (cfg : Config) (requireOrigin : Bool)
    (r : Request) (hkeys : r.Header.CanonicalKeys)
    (hfwd : corsProxy L requireOrigin ResponseWriter.fresh r = .proxied ResponseWriter.fresh r) :
    CookieFree (director L r).Header ∧
      (∀ e ∈ r.Header.entries, e.1 ≠ "Set-Cookie" → e.1 ≠ "Set-Cookie2" →
        e ∈ (director L r).Header.entries) ∧
      (∀ (w : σ) (resp : Response), CookieFree resp.Request.Header →
        ∀ q ∈ (modifyResponse L Do cfg w resp).issued, CookieFree q.Header) ∧
      (∀ (w : σ) (reply : Reply),
        ∀ q ∈ (modifyResponse L Do cfg w (reply.toResponse (director L r))).issued,
          CookieFree q.Header) := by
  have e1 : CanonicalMIMEHeaderKey "set-cookie" = "Set-Cookie" := by decide
  have e2 : CanonicalMIMEHeaderKey "set-cookie2" = "Set-Cookie2" := by decide
  have hparse : ∃ u, urlParse L (corsURLOf r) = .ok u := by
    cases hp : urlParse L (corsURLOf r) with
    | error e => simp [corsProxy, hp] at hfwd
    | ok u => exact ⟨u, rfl⟩
  obtain ⟨u, hu⟩ := hparse
  have hd : (director L r).Header = (r.Header.Del "set-cookie").Del "set-cookie2" := by
    simp [director, hu]
  have hclean : CookieFree (director L r).Header := by
    rw [hd]
    refine ⟨?_, ?_, ?_⟩
    · intro e he
      exact hkeys e (Header.mem_Del.mp (Header.mem_Del.mp he).1).1
    · rintro ⟨e, he, hc⟩
      have h1 := Header.mem_Del.mp (Header.mem_Del.mp he).1
      exact h1.2 (by rw [← hkeys e h1.1]; exact hc)
    · rintro ⟨e, he, hc⟩
      have h1 := Header.mem_Del.mp he
      have h2 := Header.mem_Del.mp h1.1
      exact h1.2 (by rw [← hkeys e h2.1]; exact hc)
  have hinv : ∀ (w : σ) (resp : Response), CookieFree resp.Request.Header →
      ∀ q ∈ (modifyResponse L Do cfg w resp).issued, CookieFree q.Header := by
    intro w resp hc q hq
    exact redirectLoop_issued_inv L Do cfg (fun q => CookieFree q.Header)
      (fun resp url req h1 h2 => followUp_cookieFree h1 h2) _ 0 w _ resp rfl hc q hq
  refine ⟨hclean, ?_, hinv, ?_⟩
  · intro e he h1 h2
    rw [hd]
    exact Header.mem_Del.mpr ⟨Header.mem_Del.mpr ⟨he, by rw [e1]; exact h1⟩, by rw [e2]; exact h2⟩
  · intro w reply q hq
    exact hinv w (reply.toResponse (director L r)) hclean q hq

/-! ### Redirect chains -/

theorem followChain_succ_inv {σ : Type} {L : NetURL}
    {Do : σ → Request → Except String Reply × σ} {k : Nat} {w : σ} {prev : String}
    {resp : Response} {reqs : List Request} {wf : σ} {final : Response}
    (h : followChain L Do (k + 1) w prev resp = some (reqs, wf, final)) :
    ∃ url req reply w1 reqs1,
      (resp.StatusCode = 307 ∨ resp.StatusCode = 308) ∧ resp.Header.Get "Location" ≠ "" ∧
      redirectTarget L resp (resp.Header.Get "Location") = .ok url ∧ url ≠ prev ∧
      followUp L resp url = .ok req ∧ Do w req = (.ok reply, w1) ∧
      followChain L Do k w1 url (reply.toResponse req) = some (reqs1, wf, final) ∧
      reqs = req :: reqs1 := by
  rw [followChain] at h
  split at h
  · rename_i hs
    cases ht : redirectTarget L resp (resp.Header.Get "Location") with
    | error e => simp [ht] at h
    | ok url =>
      simp only [ht] at h
      split at h
      · simp at h
      · rename_i hne
        cases hreq : followUp L resp url with
        | error e => simp [hreq] at h
        | ok req =>
          simp only [hreq] at h
          rcases hdo : Do w req with ⟨res, w1⟩
          cases res with
          | error e => simp [hdo] at h
          | ok reply =>
            simp only [hdo] at h
            cases hrec : followChain L Do k w1 url (reply.toResponse req) with
            | none => simp [hrec] at h
            | some t =>
              obtain ⟨reqs1, wf1, final1⟩ := t
              simp only [hrec, Option.some.injEq, Prod.mk.injEq] at h
              obtain ⟨h1, h2, h3⟩ := h
              subst h2 h3
              exact ⟨url, req, reply, w1, reqs1, hs.1, hs.2, rfl, hne, hreq, hdo, hrec, h1.symm⟩
  · simp at h

theorem redirectLoop_followChain {σ : Type} (L : NetURL)
    (Do : σ → Request → Except String Reply × σ) (cfg : Config)
    (henable : cfg.enableRedirect = true) :
    ∀ (k : Nat) (w : σ) (prev : String) (resp : Response) (reqs : List Request) (wf : σ)
      (final : Response) (c : Int), c ≤ cfg.maxRedirects →
      followChain L Do k w prev resp = some (reqs, wf, final) →
      (redirectLoop L Do cfg w c prev resp).issued = reqs.take (cfg.maxRedirects - c).toNat ∧
      reqs.length = k ∧
      ((k : Int) ≤ cfg.maxRedirects - c →
        (redirectLoop L Do cfg w c prev resp).result = .ok (stampResponse final) ∧
        (redirectLoop L Do cfg w c prev resp).upstream = wf) ∧
      (cfg.maxRedirects - c < (k : Int) →
        (redirectLoop L Do cfg w c prev resp).result = .error (limitError cfg.maxRedirects)) := by
  intro k
  induction k with
  | zero =>
    intro w prev resp reqs wf final c hc h
    rw [followChain] at h
    split at h
    · simp at h
    · rename_i hs
      simp only [Option.some.injEq, Prod.mk.injEq] at h
      obtain ⟨h1, h2, h3⟩ := h
      subst h1 h2 h3
      have hR : ¬ Redirecting cfg resp := fun hR => hs hR.2
      rw [redirectLoop_exit L Do cfg w c prev resp hR]
      refine ⟨by simp, rfl, fun _ => ⟨rfl, rfl⟩, fun hlt => ?_⟩
      exfalso
      have : (0 : Int) ≤ cfg.maxRedirects - c := by omega
      simp at hlt
      omega
  | succ k ih =>
    intro w prev resp reqs wf final c hc h
    obtain ⟨url, req, reply, w1, reqs1, hs, hloc, ht, hne, hreq, hdo, hrec, hreqs⟩ :=
      followChain_succ_inv h
    have hR : Redirecting cfg resp := ⟨henable, hs⟩
    by_cases hlim : c < cfg.maxRedirects
    · have hstep := redirectLoop_follow L Do cfg w c prev resp hR hlim hloc url ht hne req hreq
        reply w1 hdo
      obtain ⟨i1, i2, i3, i4⟩ := ih w1 url (reply.toResponse req) reqs1 wf final (c + 1)
        (by omega) hrec
      rw [hstep]
      have hm : (cfg.maxRedirects - c).toNat = (cfg.maxRedirects - (c + 1)).toNat + 1 := by
        omega
      refine ⟨?_, ?_, ?_, ?_⟩
      · simp only []
        rw [i1, hreqs, hm, List.take_succ_cons]
      · rw [hreqs, List.length_cons, i2]
      · intro hk
        have hk1 : (k : Int) ≤ cfg.maxRedirects - (c + 1) := by push_cast at hk; omega
        exact i3 hk1
      · intro hk
        have hk1 : cfg.maxRedirects - (c + 1) < (k : Int) := by push_cast at hk; omega
        exact i4 hk1
    · have hce : cfg.maxRedirects ≤ c := by omega
      rw [redirectLoop_limit L Do cfg w c prev resp hR hce]
      have hz : (cfg.maxRedirects - c).toNat = 0 := by omega
      refine ⟨by simp [hz], ?_, ?_, fun _ => rfl⟩
      · have := (ih w1 url (reply.toResponse req) reqs1 wf final cfg.maxRedirects
          (le_refl _) hrec).2.1
        rw [hreqs, List.length_cons, this]
      · intro hk
        exfalso
        push_cast at hk
        omega

/-- C1: with redirect-following enabled and `maxRedirects = n ≥ 0`, on a chain
of `k` consecutive 307/308 responses that can each be followed, ended by a
response `final` that is not a 307/308, `modifyResponse` issues the first
`min k n` follow-up requests of the chain and no other; when `k ≤ n` it returns
success with `final` plus the two CORS headers, when `k > n` it returns the
`maximum redirect limit (n) reached` error. -/
theorem C1_redirect_chain {σ : Type} (L : NetURL)
    (Do : σ → Request → Except String Reply × σ) (cfg : Config) (w : σ) (resp : Response)
    (k : Nat) (reqs : List Request) (wf : σ) (final : Response)
    (henable : cfg.enableRedirect = true) (hmax : 0 ≤ cfg.maxRedirects)
    (hchain : followChain L Do k w (L.urlString resp.Request.URL) resp =
      some (reqs, wf, final)) :
    (modifyResponse L Do cfg w resp).issued = reqs.take cfg.maxRedirects.toNat ∧
      (modifyResponse L Do cfg w resp).issued.length = min k cfg.maxRedirects.toNat ∧
      ((k : Int) ≤ cfg.maxRedirects →
        (modifyResponse L Do cfg w resp).upstream = wf ∧
        ∃ out, (modifyResponse L Do cfg w resp).result = .ok out ∧ IsStamped out final) ∧
      (cfg.maxRedirects < (k : Int) →
        (modifyResponse L Do cfg w resp).result =
          .error ("maximum redirect limit (" ++ toString cfg.maxRedirects ++ ") reached")) := by
  obtain ⟨h1, h2, h3, h4⟩ := redirectLoop_followChain L Do cfg henable k w
    (L.urlString resp.Request.URL) resp reqs wf final 0 hmax hchain
  simp only [sub_zero] at h1 h3 h4
  unfold modifyResponse
  refine ⟨h1, ?_, ?_, ?_⟩
  · rw [h1, List.length_take, h2, min_comm]
  · intro hk
    exact ⟨(h3 hk).2, stampResponse final, (h3 hk).1, stampResponse_isStamped final⟩
  · intro hk
    exact h4 hk

set_option maxRecDepth 100000 in
theorem C1_redirect_chain_witness :
    ((modifyResponse goURL hopping ⟨true, 3⟩ () (chainStart "/2")).issued =
        [hopRequest "example.com" "/2", hopRequest "example.com" "/3",
          hopRequest "example.com" "/4"] ∧
      ∃ out, (modifyResponse goURL hopping ⟨true, 3⟩ () (chainStart "/2")).result = .ok out ∧
        IsStamped out (okReply.toResponse (hopRequest "example.com" "/4"))) ∧
    ((modifyResponse goURL hopping ⟨true, 3⟩ () (chainStart "/1")).issued.length = 3 ∧
      (modifyResponse goURL hopping ⟨true, 3⟩ () (chainStart "/1")).result =
        .error "maximum redirect limit (3) reached") := by
  have h3 := C1_redirect_chain goURL hopping ⟨true, 3⟩ () (chainStart "/2") 3
    [hopRequest "example.com" "/2", hopRequest "example.com" "/3",
      hopRequest "example.com" "/4"] ()
    (okReply.toResponse (hopRequest "example.com" "/4")) (by decide) (by decide) (by decide)
  have h4 := C1_redirect_chain goURL hopping ⟨true, 3⟩ () (chainStart "/1") 4
    [hopRequest "example.com" "/1", hopRequest "example.com" "/2",
      hopRequest "example.com" "/3", hopRequest "example.com" "/4"] ()
    (okReply.toResponse (hopRequest "example.com" "/4")) (by decide) (by decide) (by decide)
  exact ⟨⟨h3.1, (h3.2.2.1 (by decide)).2⟩, h4.2.1, h4.2.2.2 (by decide)⟩

theorem C7_no_set_cookie_witness :
    CookieFree (director goURL sampleInbound).Header ∧
      (director goURL sampleInbound).Header.entries =
        [("Origin", ["https://app.test"]), ("Accept", ["*/*"])] ∧
      ∀ q ∈ (modifyResponse goURL hopping ⟨true, 3⟩ ()
          ((redirectReply "/1").toResponse (director goURL sampleInbound))).issued,
        CookieFree q.Header :=
  ⟨(C7_no_set_cookie goURL hopping ⟨true, 3⟩ true sampleInbound (by decide) (by decide)).1,
    by decide,
    (C7_no_set_cookie goURL hopping ⟨true, 3⟩ true sampleInbound (by decide) (by decide)).2.2.2
      () (redirectReply "/1")⟩

/-- C8, as the code has it: at every hop a `Location` that starts with
`http://` or `https://` is the redirect URL verbatim, and any other `Location`
is parsed and resolved against a base made of the scheme and host of
`resp.Request.URL`, the URL of the request that produced the current response.
The follow-up request is built from the redirect URL and becomes the `Request`
of the next working response, so after a hop the base is that hop's scheme and
host: the original request's only at the first hop. -/
theorem C8_relative_location {σ : Type} (L : NetURL)
    (Do : σ → Request → Except String Reply × σ) (cfg : Config) (w : σ)
    (redirectCount : Int) (previousURL : String) (resp : Response)
    (url : String) (req : Request) (reply : Reply) (w1 : σ)
    (henable : cfg.enableRedirect = true)
    (hstatus : resp.StatusCode = 307 ∨ resp.StatusCode = 308)
    (hcount : redirectCount < cfg.maxRedirects)
    (hloc : resp.Header.Get "Location" ≠ "")
    (htarget : redirectTarget L resp (resp.Header.Get "Location") = .ok url)
    (hne : url ≠ previousURL)
    (hreq : followUp L resp url = .ok req)
    (hdo : Do w req = (.ok reply, w1)) :
    (hasScheme (resp.Header.Get "Location") = true → url = resp.Header.Get "Location") ∧
      (hasScheme (resp.Header.Get "Location") = false →
        ∃ u, urlParse L (resp.Header.Get "Location") = .ok u ∧
          url = L.urlString (L.resolveReference
            { Scheme := resp.Request.URL.Scheme, Host := resp.Request.URL.Host } u)) ∧
      (∃ u1, urlParse L url = .ok u1 ∧ req.URL = { u1 with Host := removeEmptyPort u1.Host }) ∧
      (reply.toResponse req).Request = req ∧
      redirectLoop L Do cfg w redirectCount previousURL resp =
        { redirectLoop L Do cfg w1 (redirectCount + 1) url (reply.toResponse req) with
          issued := req ::
            (redirectLoop L Do cfg w1 (redirectCount + 1) url (reply.toResponse req)).issued } := by
  refine ⟨?_, ?_, ?_, rfl, ?_⟩
  · intro hs
    simp only [redirectTarget, hs, if_true, Except.ok.injEq] at htarget
    exact htarget.symm
  · intro hs
    simp only [redirectTarget, hs, Bool.false_eq_true, if_false] at htarget
    cases hp : urlParse L (resp.Header.Get "Location") with
    | error e => simp [hp] at htarget
    | ok u =>
      simp only [hp, Except.ok.injEq] at htarget
      exact ⟨u, rfl, htarget.symm⟩
  · obtain ⟨u1, hu1, hr⟩ := followUp_ok hreq
    exact ⟨u1, hu1, by rw [hr]⟩
  · exact redirectLoop_follow L Do cfg w redirectCount previousURL resp ⟨henable, hstatus⟩ hcount
      hloc url htarget hne req hreq reply w1 hdo

set_option maxRecDepth 100000 in
theorem C8_relative_location_witness :
    ∃ u, urlParse goURL "/new/path" = .ok u ∧
      "http://other.com/new/path" =
        goURL.urlString (goURL.resolveReference { Scheme := "http", Host := "other.com" } u) :=
  (C8_relative_location goURL crossHost ⟨true, 3⟩ () 1 "http://other.com/b"
    ((redirectReply "/new/path").toResponse (hopRequest "other.com" "/b"))
    "http://other.com/new/path" (hopRequest "other.com" "/new/path") okReply ()
    (by decide) (by decide) (by decide) (by decide) (by decide) (by decide) (by decide)
    (by decide)).2.1 (by decide)

set_option maxRecDepth 100000 in
/-- C8 fails as stated: the chain starts at `http://example.com/a`, the first
response redirects to `http://other.com/b`, and the relative `/new/path` sent
from there is requested at `http://other.com/new/path`, the host of the most
recent hop, not at `http://example.com/new/path`. -/
theorem C8_counterexample :
    goURL.urlString (chainStart "http://other.com/b").Request.URL = "http://example.com/a" ∧
      (modifyResponse goURL crossHost ⟨true, 3⟩ () (chainStart "http://other.com/b")).issued.map
          (fun q => goURL.urlString q.URL) =
        ["http://other.com/b", "http://other.com/new/path"] ∧
      (modifyResponse goURL crossHost ⟨true, 3⟩ () (chainStart "http://other.com/b")).issued.map
          (fun q => goURL.urlString q.URL) ≠
        ["http://other.com/b", "http://example.com/new/path"] := by
  have h := redirectLoop_followChain goURL crossHost ⟨true, 3⟩ rfl 2 ()
    (goURL.urlString (chainStart "http://other.com/b").Request.URL)
    (chainStart "http://other.com/b")
    [hopRequest "other.com" "/b", hopRequest "other.com" "/new/path"] ()
    (okReply.toResponse (hopRequest "other.com" "/new/path")) 0 (by decide) (by decide)
  unfold modifyResponse
  rw [h.1]
  decide

end CorsAnywhere
